import Mathlib

/-!
Verification of the nclaude message hub and client connection manager
(`scripts/hub.py`, `scripts/client.py`) against their natural-language
specification.

The Python data is embedded shallowly:
* Python `dict`s (insertion-ordered, unique keys) become association lists
  with update-in-place semantics (`dictSet`, `dictGet`, `dictPop`).
* Sockets become natural-number handles.
* The broker state `MessageHub.clients` / `MessageHub.client_sessions`
  becomes `HubState`.
* The non-reentrant `threading.Lock` is explicit: an operation that
  acquires it while it is already held returns `none` (the thread blocks
  forever).  Every registry operation threads the lock state and returns
  `Option`.
* `json.loads` is an external library call; broker/client frame handlers
  are parametrised by a `parse : String → Option InMsg` oracle standing
  for it.
-/

namespace Nclaude

/-! ## Python dict as an association list -/

/-- `d[k] = v`: update in place if the key exists, else append (CPython
insertion-order semantics). -/
def dictSet {α β : Type} [DecidableEq α] : List (α × β) → α → β → List (α × β)
  | [], k, v => [(k, v)]
  | (k', v') :: t, k, v =>
    if k' = k then (k, v) :: t else (k', v') :: dictSet t k v

/-- `d.get(k)`: first (and, for a dict, only) binding of `k`. -/
def dictGet {α β : Type} [DecidableEq α] : List (α × β) → α → Option β
  | [], _ => none
  | (k', v') :: t, k => if k' = k then some v' else dictGet t k

/-- `d.pop(k, None)`: the removed value (if any) and the remaining dict. -/
def dictPop {α β : Type} [DecidableEq α] : List (α × β) → α → Option β × List (α × β)
  | [], _ => (none, [])
  | (k', v') :: t, k =>
    if k' = k then (some v', t)
    else
      let (r, t') := dictPop t k
      (r, (k', v') :: t')

/-- `list(d.keys())` in insertion order. -/
def dictKeys {α β : Type} (d : List (α × β)) : List α := d.map Prod.fst

/-! ## Wire data -/

/-- The `to` field of an incoming application message: absent, a bare
string, or a list of identities (`msg.get("to", [])` plus the
`isinstance(recipients, str)` coercion read it this way). -/
inductive ToField : Type
  | absent
  | str (s : String)
  | list (l : List String)
  deriving DecidableEq, Repr

/-- An incoming frame as decoded by `json.loads`, restricted to the fields
`_process_message` consults: `type`, `session_id`, `to`, `body`. -/
structure InMsg : Type where
  type : Option String
  session_id : Option String
  toF : ToField
  body : Option String
  deriving DecidableEq, Repr

/-- `msg.get("type", "MSG")`. -/
def msgType (m : InMsg) : String := m.type.getD "MSG"

/-- An application message after the broker injected `from`, `timestamp`
and `id` (hub.py lines 154–157); this is the dict forwarded to
recipients. -/
structure AppMsg : Type where
  type : String
  body : Option String
  toF : ToField
  fromS : String
  timestamp : String
  id : String
  deriving DecidableEq, Repr

/-- The `to` field echoed in a `SENT` confirmation:
`recipients or "broadcast"`. -/
inductive SentTo : Type
  | toList (l : List String)
  | broadcast
  deriving DecidableEq, Repr

/-- A frame written by the broker to some client socket. -/
inductive Frame : Type
  | registered (session_id : String) (online : List String)
  | join (session_id : String) (timestamp : String)
  | leave (session_id : String) (timestamp : String)
  | sent (id : String) (toEcho : SentTo)
  | error (msg : String)
  | relay (m : AppMsg)
  deriving DecidableEq, Repr

/-- `s.replace(c, "")` for a single-character pattern: drop every
occurrence of `c`. -/
def removeChar (c : Char) (s : String) : String :=
  String.mk (s.toList.filter (fun x => ¬ x = c))

/-- `msg["timestamp"].replace(":", "").replace("-", "")`. -/
def mangleTs (ts : String) : String := removeChar '-' (removeChar ':' ts)

/-- Python `str.strip()`: drop leading and trailing whitespace. -/
def pyStrip (s : String) : String :=
  String.mk
    (((s.toList.dropWhile Char.isWhitespace).reverse.dropWhile
        Char.isWhitespace).reverse)

/-- Python `str.split("\n")` on the underlying characters. -/
def splitNl : List Char → List (List Char)
  | [] => [[]]
  | c :: rest =>
    let ls := splitNl rest
    if c = '\n' then [] :: ls
    else
      match ls with
      | [] => [[c]]
      | l :: t => (c :: l) :: t

/-- Python `data.split("\n")` as a list of strings. -/
def pySplitNl (s : String) : List String := (splitNl s.toList).map String.mk

/-- `f"{sender}-{...}"`: the deterministic message id (hub.py line 157). -/
def msgId (sender ts : String) : String := sender ++ "-" ++ mangleTs ts

/-! ## Broker state -/

/-- The two registry views of `MessageHub`:
`clients : session_id → socket` and `client_sessions : socket → session_id
or None` (a `none` value is an accepted but unregistered connection). -/
structure HubState : Type where
  clients : List (String × Nat)
  clientSessions : List (Nat × Option String)
  deriving DecidableEq, Repr

/-- The registered identity of a socket, if any: `client_sessions.get(c)`
collapsing "absent" and "present with value None". -/
def sessionOf (st : HubState) (c : Nat) : Option String :=
  match dictGet st.clientSessions c with
  | some (some s) => some s
  | _ => none

/-- Acquiring the non-reentrant `threading.Lock`: blocks forever
(= `none`) if the current thread already holds it. -/
def acquire (held : Bool) : Option Bool :=
  if held then none else some true

/-- `_broadcast(msg, exclude)`: one frame to every socket currently in
`client_sessions` (registered or not) except the excluded ones, in dict
insertion order. -/
def broadcastFrames (st : HubState) (f : Frame) (exclude : List Nat) :
    List (Nat × Frame) :=
  ((dictKeys st.clientSessions).filter (fun c => ¬ c ∈ exclude)).map
    (fun c => (c, f))

/-- `_disconnect_client(client)` (hub.py lines 214–231).  Takes the lock
(deadlocking if the caller already holds it), pops both registry
directions, closes the socket, and broadcasts `LEAVE` only if the
connection had a registered, truthy session id.  Returns the new state,
the frames written, and the sockets closed. -/
def disconnectClient (held : Bool) (st : HubState) (sock : Nat) (ts : String) :
    Option (HubState × List (Nat × Frame) × List Nat) :=
  match acquire held with
  | none => none
  | some _ =>
    let (v, cs1) := dictPop st.clientSessions sock
    let sid : Option String := match v with
      | some (some s) => if s = "" then none else some s
      | _ => none
    match sid with
    | some s =>
      let st1 : HubState := ⟨(dictPop st.clients s).2, cs1⟩
      some (st1, broadcastFrames st1 (Frame.leave s ts) [], [sock])
    | none =>
      let st1 : HubState := ⟨st.clients, cs1⟩
      some (st1, [], [sock])

/-- The REGISTER branch of `_process_message` (hub.py lines 124–146).
With a falsy `session_id` (absent or empty) nothing at all happens.
Otherwise the lock is taken; if the identity already maps to a *different*
socket the code calls `_disconnect_client(old_sock)` while still holding
the lock — `disconnectClient` then tries to re-acquire it, i.e. the
branch deadlocks (`none`).  Otherwise both views are updated under the
lock, the lock is released, the `REGISTERED` ack (roster read after the
install) is sent, and `JOIN` is broadcast to everyone else. -/
def processRegister (held : Bool) (st : HubState) (client : Nat)
    (sid? : Option String) (ts : String) :
    Option (HubState × List (Nat × Frame) × List Nat) :=
  match sid? with
  | none => some (st, [], [])
  | some sid =>
    if sid = "" then some (st, [], [])
    else
      match acquire held with
      | none => none
      | some held1 =>
        let evict : Option (HubState × List (Nat × Frame) × List Nat) :=
          match dictGet st.clients sid with
          | some old =>
            if old = client then some (st, [], [])
            else disconnectClient held1 st old ts
          | none => some (st, [], [])
        match evict with
        | none => none
        | some (st1, fs1, cl1) =>
          let st2 : HubState :=
            ⟨dictSet st1.clients sid client,
             dictSet st1.clientSessions client (some sid)⟩
          let ack : Nat × Frame :=
            (client, Frame.registered sid (dictKeys st2.clients))
          some (st2,
                fs1 ++ ack :: broadcastFrames st2 (Frame.join sid ts) [client],
                cl1)

/-- `_route_to(session_id, msg)` (hub.py lines 179–191): deliver if the
identity resolves, otherwise only a broker-side warning string. -/
def routeTo (st : HubState) (sid : String) (m : AppMsg) :
    List (Nat × Frame) × List String :=
  match dictGet st.clients sid with
  | some c => ([(c, Frame.relay m)], [])
  | none => ([], ["Session " ++ sid ++ " not connected"])

/-- The `for recipient in recipients: self._route_to(...)` loop. -/
def routeAll (st : HubState) (rs : List String) (m : AppMsg) :
    List (Nat × Frame) × List String :=
  match rs with
  | [] => ([], [])
  | r :: rest =>
    let (fs, ws) := routeTo st r m
    let (fs2, ws2) := routeAll st rest m
    (fs ++ fs2, ws ++ ws2)

/-- `msg.get("to", [])` followed by the string-to-list coercion
(hub.py lines 160–162). -/
def coerceTo : ToField → List String
  | ToField.absent => []
  | ToField.str s => [s]
  | ToField.list l => l

/-- The application-message path of `_process_message` (hub.py lines
148–177): reject unregistered senders with an `ERROR`, stamp
`from`/`timestamp`/`id`, broadcast when the recipient list is empty,
route individually otherwise, and always finish with one `SENT` to the
sender.  Registry state is not mutated on this path.  Returns the frames
written and the warning diagnostics printed. -/
def processApp (st : HubState) (client : Nat) (m : InMsg) (ts : String) :
    List (Nat × Frame) × List String :=
  match sessionOf st client with
  | none => ([(client, Frame.error "Not registered. Send REGISTER first.")], [])
  | some sender =>
    if sender = "" then
      ([(client, Frame.error "Not registered. Send REGISTER first.")], [])
    else
      let am : AppMsg :=
        ⟨msgType m, m.body, m.toF, sender, ts, msgId sender ts⟩
      let recipients := coerceTo m.toF
      let (dels, warns) :=
        match recipients with
        | [] => (broadcastFrames st (Frame.relay am) [client], [])
        | _ => routeAll st recipients am
      let echo : SentTo :=
        match recipients with
        | [] => SentTo.broadcast
        | _ => SentTo.toList recipients
      (dels ++ [(client, Frame.sent am.id echo)], warns)

/-- One decoded frame through `_process_message`: dispatch on
`msg.get("type", "MSG")`. -/
def processMessage (held : Bool) (st : HubState) (client : Nat) (m : InMsg)
    (ts : String) :
    Option (HubState × List (Nat × Frame) × List String × List Nat) :=
  if msgType m = "REGISTER" then
    (processRegister held st client m.session_id ts).map
      (fun r => (r.1, r.2.1, [], r.2.2))
  else
    let (fs, ws) := processApp st client m ts
    some (st, fs, ws, [])

/-- The per-line loop of `_handle_client` (hub.py lines 104–112): skip
empty lines, process parsed frames, answer `ERROR "Invalid JSON"` on a
parse failure and keep going. -/
def handleLines (parse : String → Option InMsg) (st : HubState) (client : Nat)
    (lines : List String) (ts : String) :
    Option (HubState × List (Nat × Frame) × List String × List Nat) :=
  match lines with
  | [] => some (st, [], [], [])
  | l :: rest =>
    if l = "" then handleLines parse st client rest ts
    else
      match parse l with
      | some m =>
        match processMessage false st client m ts with
        | none => none
        | some (st1, fs, ws, cl) =>
          match handleLines parse st1 client rest ts with
          | none => none
          | some (st2, fs2, ws2, cl2) =>
            some (st2, fs ++ fs2, ws ++ ws2, cl ++ cl2)
      | none =>
        match handleLines parse st client rest ts with
        | none => none
        | some (st2, fs2, ws2, cl2) =>
          some (st2, (client, Frame.error "Invalid JSON") :: fs2, ws2, cl2)

/-- One non-empty `recv` in `_handle_client` (hub.py lines 104–112):
`data.decode().strip().split("\n")` then the per-line loop.  No bytes are
carried over between reads — the hub keeps no reassembly buffer. -/
def handleRead (parse : String → Option InMsg) (st : HubState) (client : Nat)
    (data : String) (ts : String) :
    Option (HubState × List (Nat × Frame) × List String × List Nat) :=
  handleLines parse st client (pySplitNl (pyStrip data)) ts

/-! ## Client connection manager (`client.py`) -/

/-- A frame sitting in the client's inbound `message_queue`, restricted to
the fields `HubClient.send` consults: `response.get("type")`,
`response.get("id")`, `response.get("to")`. -/
structure CMsg : Type where
  typeF : Option String
  idF : Option String
  toEcho : Option SentTo
  deriving DecidableEq, Repr

/-- Outcome of `HubClient.recv`: a message, `None` after a bounded wait on
an empty queue (`queue.Empty`), or an unbounded block
(`Queue.get(timeout=None)` on an empty queue with no producer). -/
inductive RecvOutcome : Type
  | msg (m : CMsg)
  | empty
  | blocks
  deriving DecidableEq, Repr

/-- `HubClient.recv(timeout)` (client.py lines 106–111):
`message_queue.get(timeout=timeout if timeout > 0 else None)`.  A
non-positive timeout therefore passes `None`, which on an empty queue
blocks indefinitely; on a non-empty queue the head is returned at once.
The queue is modelled at a quiescent instant (no concurrent producer),
so a positive timeout on an empty queue ends in `queue.Empty`/`None`. -/
def clientRecv (q : List CMsg) (timeout : ℚ) : RecvOutcome × List CMsg :=
  if 0 < timeout then
    match q with
    | [] => (RecvOutcome.empty, [])
    | m :: rest => (RecvOutcome.msg m, rest)
  else
    match q with
    | [] => (RecvOutcome.blocks, [])
    | m :: rest => (RecvOutcome.msg m, rest)

/-- Outcome of the confirmation wait inside `HubClient.send`. -/
inductive SendResult : Type
  | confirmed (id : Option String) (toEcho : Option SentTo)
  | unknownId
  | unconfirmed
  deriving DecidableEq, Repr

/-- The confirmation wait of `HubClient.send` (client.py lines 94–104):
pop one item with a 5 s timeout; a `SENT` frame confirms the send; any
other frame is put back with `Queue.put` — which APPENDS AT THE TAIL —
and the call returns `id:"unknown"`; an empty queue after the timeout
returns `id:"unconfirmed"`. -/
def sendWait (q : List CMsg) : SendResult × List CMsg :=
  match q with
  | [] => (SendResult.unconfirmed, [])
  | r :: rest =>
    if r.typeF = some "SENT" then (SendResult.confirmed r.idF r.toEcho, rest)
    else (SendResult.unknownId, rest ++ [r])

/-! ### The client receive loop's frame reassembly

`_recv_loop` (client.py lines 153–177) keeps a string `buffer`, appends
each chunk read from the socket, and repeatedly splits off the part
before the first `"\n"`.  Strings are modelled as `List Char`. -/

/-- Split a buffer into its complete (newline-terminated) lines and the
trailing partial line, exactly as the `while "\n" in buffer` loop
consumes it. -/
def drain : List Char → List (List Char) × List Char
  | [] => ([], [])
  | c :: rest =>
    if c = '\n' then ([] :: (drain rest).1, (drain rest).2)
    else
      match (drain rest).1 with
      | [] => ([], c :: (drain rest).2)
      | l :: ls1 => ((c :: l) :: ls1, (drain rest).2)

/-- The body of the `while` loop applied to a batch of completed lines:
skip empty lines, decode, enqueue; a decode failure is silently
dropped (`except json.JSONDecodeError: pass`). -/
def enqueueLines (parse : String → Option InMsg) (q : List InMsg)
    (ls : List (List Char)) : List InMsg :=
  match ls with
  | [] => q
  | l :: rest =>
    let q1 :=
      if l = [] then q
      else
        match parse (String.mk l) with
        | some m => q ++ [m]
        | none => q
    enqueueLines parse q1 rest

/-- One iteration of `_recv_loop` for one successful socket read:
`buffer += data`, then the line-splitting loop feeding the queue. -/
def clientStep (parse : String → Option InMsg)
    (s : List Char × List InMsg) (chunk : List Char) :
    List Char × List InMsg :=
  ((drain (s.1 ++ chunk)).2, enqueueLines parse s.2 (drain (s.1 ++ chunk)).1)

/-! ## Frame classifiers -/

/-- Is this frame a `SENT` confirmation? -/
def isSentFrame : Frame → Bool
  | Frame.sent _ _ => true
  | _ => false

/-- Is this frame an `ERROR` reply? -/
def isErrorFrame : Frame → Bool
  | Frame.error _ => true
  | _ => false

/-! ## Helper lemmas -/

theorem mem_dictKeys_dictSet {α β : Type} [DecidableEq α]
    (d : List (α × β)) (k : α) (v : β) : k ∈ dictKeys (dictSet d k v) := by
  induction d with
  | nil => simp [dictSet, dictKeys]
  | cons hd t ih =>
    obtain ⟨k', v'⟩ := hd
    by_cases h : k' = k
    · simp [dictSet, h, dictKeys]
    · simpa [dictSet, h, dictKeys] using Or.inr ih

theorem mem_broadcastFrames (st : HubState) (f : Frame) (ex : List Nat)
    (c : Nat) (g : Frame) :
    (c, g) ∈ broadcastFrames st f ex ↔
      (g = f ∧ c ∈ dictKeys st.clientSessions ∧ ¬ c ∈ ex) := by
  simp only [broadcastFrames, List.mem_map, List.mem_filter]
  constructor
  · rintro ⟨x, ⟨hx, hex⟩, hpair⟩
    injection hpair with h1 h2
    subst h1
    subst h2
    exact ⟨rfl, hx, by simpa using hex⟩
  · rintro ⟨rfl, hc, hex⟩
    exact ⟨c, ⟨hc, by simpa using hex⟩, rfl⟩

theorem snd_mem_broadcastFrames (st : HubState) (f : Frame) (ex : List Nat) :
    ∀ p ∈ broadcastFrames st f ex, p.2 = f := by
  intro p hp
  simp only [broadcastFrames, List.mem_map] at hp
  obtain ⟨c, _, rfl⟩ := hp
  rfl

theorem snd_mem_routeAll (st : HubState) (rs : List String) (m : AppMsg) :
    ∀ p ∈ (routeAll st rs m).1, p.2 = Frame.relay m := by
  induction rs with
  | nil => intro p hp; simp [routeAll] at hp
  | cons r rest ih =>
    intro p hp
    simp only [routeAll] at hp
    rcases List.mem_append.mp hp with h | h
    · unfold routeTo at h
      cases hg : dictGet st.clients r with
      | some c => rw [hg] at h; simp at h; rw [h]
      | none => rw [hg] at h; simp at h
    · exact ih p h

theorem routeAll_delivers (st : HubState) (rs : List String) (m : AppMsg)
    (r : String) (c : Nat) (hr : r ∈ rs) (hg : dictGet st.clients r = some c) :
    (c, Frame.relay m) ∈ (routeAll st rs m).1 := by
  induction rs with
  | nil => simp at hr
  | cons r0 rest ih =>
    simp only [routeAll]
    rcases List.mem_cons.mp hr with rfl | h
    · exact List.mem_append.mpr (Or.inl (by simp [routeTo, hg]))
    · exact List.mem_append.mpr (Or.inr (ih h))

theorem routeAll_warns (st : HubState) (rs : List String) (m : AppMsg)
    (r : String) (hr : r ∈ rs) (hg : dictGet st.clients r = none) :
    ("Session " ++ r ++ " not connected") ∈ (routeAll st rs m).2 := by
  induction rs with
  | nil => simp at hr
  | cons r0 rest ih =>
    simp only [routeAll]
    rcases List.mem_cons.mp hr with rfl | h
    · exact List.mem_append.mpr (Or.inl (by simp [routeTo, hg]))
    · exact List.mem_append.mpr (Or.inr (ih h))

theorem countP_eq_zero_of_forall {α : Type} (p : α → Bool) (l : List α)
    (h : ∀ x ∈ l, p x = false) : List.countP p l = 0 :=
  List.countP_eq_zero.mpr (by intro x hx; simp [h x hx])

/-! ### Reassembly-buffer lemmas -/

theorem drain_no_newline (b : List Char) (h : ∀ c ∈ b, ¬ c = '\n') :
    drain b = ([], b) := by
  induction b with
  | nil => rfl
  | cons c rest ih =>
    have hc : ¬ c = '\n' := h c (List.mem_cons_self c rest)
    have hrest := ih (fun x hx => h x (List.mem_cons_of_mem c hx))
    simp [drain, hc, hrest]

theorem drain_snd_no_newline (b : List Char) :
    ∀ c ∈ (drain b).2, ¬ c = '\n' := by
  induction b with
  | nil => intro c hc; simp [drain] at hc
  | cons a rest ih =>
    intro c hc
    by_cases ha : a = '\n'
    · rw [show drain (a :: rest) = ([] :: (drain rest).1, (drain rest).2) by
        simp [drain, ha]] at hc
      exact ih c hc
    · rcases hd : (drain rest).1 with _ | ⟨l, ls1⟩
      · rw [show drain (a :: rest) = ([], a :: (drain rest).2) by
          simp [drain, ha, hd]] at hc
        rcases List.mem_cons.mp hc with rfl | hc2
        · exact ha
        · exact ih c hc2
      · rw [show drain (a :: rest) = ((a :: l) :: ls1, (drain rest).2) by
          simp [drain, ha, hd]] at hc
        exact ih c hc

theorem drain_append (xs ys : List Char) :
    drain (xs ++ ys) =
      ((drain xs).1 ++ (drain ((drain xs).2 ++ ys)).1,
       (drain ((drain xs).2 ++ ys)).2) := by
  induction xs with
  | nil => simp [drain]
  | cons c xs ih =>
    by_cases hc : c = '\n'
    · simp [List.cons_append, drain, hc, ih]
    · rcases hx : (drain xs).1 with _ | ⟨l, t⟩
      · rcases hp : (drain ((drain xs).2 ++ ys)).1 with _ | ⟨l2, t2⟩
        · simp [List.cons_append, drain, hc, hx, hp, ih]
        · simp [List.cons_append, drain, hc, hx, hp, ih]
      · simp [List.cons_append, drain, hc, hx, ih]

theorem enqueueLines_append (parse : String → Option InMsg) (q : List InMsg)
    (ls1 ls2 : List (List Char)) :
    enqueueLines parse q (ls1 ++ ls2) =
      enqueueLines parse (enqueueLines parse q ls1) ls2 := by
  induction ls1 generalizing q with
  | nil => rfl
  | cons l rest ih =>
    simp only [List.cons_append, enqueueLines]
    exact ih _

theorem clientStep_append (parse : String → Option InMsg)
    (s : List Char × List InMsg) (c1 c2 : List Char) :
    clientStep parse s (c1 ++ c2) = clientStep parse (clientStep parse s c1) c2 := by
  unfold clientStep
  rw [← List.append_assoc, drain_append (s.1 ++ c1) c2, enqueueLines_append]

theorem foldl_clientStep (parse : String → Option InMsg)
    (chunks : List (List Char)) (s : List Char × List InMsg)
    (h : ∀ c ∈ s.1, ¬ c = '\n') :
    List.foldl (clientStep parse) s chunks = clientStep parse s chunks.flatten := by
  induction chunks generalizing s with
  | nil =>
    rw [List.foldl_nil, List.flatten_nil]
    unfold clientStep
    rw [List.append_nil, drain_no_newline s.1 h]
    exact Prod.mk.eta.symm
  | cons c cs ih =>
    rw [List.foldl_cons, List.flatten_cons, clientStep_append]
    exact ih (clientStep parse s c)
      (fun x hx => drain_snd_no_newline (s.1 ++ c) x hx)

theorem handleLines_append (parse : String → Option InMsg) (st : HubState)
    (client : Nat) (L1 L2 : List String) (ts : String) :
    handleLines parse st client (L1 ++ L2) ts =
      match handleLines parse st client L1 ts with
      | none => none
      | some (st1, fs, ws, cl) =>
        match handleLines parse st1 client L2 ts with
        | none => none
        | some (st2, fs2, ws2, cl2) =>
          some (st2, fs ++ fs2, ws ++ ws2, cl ++ cl2) := by
  induction L1 generalizing st with
  | nil =>
    simp only [List.nil_append, handleLines]
    rcases handleLines parse st client L2 ts with _ | ⟨st2, fs2, ws2, cl2⟩ <;> simp
  | cons l rest ih =>
    by_cases hl : l = ""
    · subst hl
      have e1 : handleLines parse st client ("" :: (rest ++ L2)) ts
          = handleLines parse st client (rest ++ L2) ts := by
        simp [handleLines]
      have e2 : handleLines parse st client ("" :: rest) ts
          = handleLines parse st client rest ts := by
        simp [handleLines]
      rw [List.cons_append, e1, e2, ih]
    · rcases hpl : parse l with _ | m
      · have e1 : handleLines parse st client (l :: (rest ++ L2)) ts
            = match handleLines parse st client (rest ++ L2) ts with
              | none => none
              | some (st2, fs2, ws2, cl2) =>
                some (st2, (client, Frame.error "Invalid JSON") :: fs2, ws2, cl2) := by
          simp [handleLines, hl, hpl]
        have e2 : handleLines parse st client (l :: rest) ts
            = match handleLines parse st client rest ts with
              | none => none
              | some (st2, fs2, ws2, cl2) =>
                some (st2, (client, Frame.error "Invalid JSON") :: fs2, ws2, cl2) := by
          simp [handleLines, hl, hpl]
        rw [List.cons_append, e1, e2, ih]
        rcases hr : handleLines parse st client rest ts with _ | ⟨st1, fs, ws, cl⟩
        · rfl
        · rcases hL2 : handleLines parse st1 client L2 ts with _ | ⟨st2, fs2, ws2, cl2⟩ <;>
            simp [hL2]
      · rcases hpm : processMessage false st client m ts with _ | ⟨st1, fs, ws, cl⟩
        · have e1 : handleLines parse st client (l :: (rest ++ L2)) ts = none := by
            simp [handleLines, hl, hpl, hpm]
          have e2 : handleLines parse st client (l :: rest) ts = none := by
            simp [handleLines, hl, hpl, hpm]
          rw [List.cons_append, e1, e2]
        · have e1 : handleLines parse st client (l :: (rest ++ L2)) ts
              = match handleLines parse st1 client (rest ++ L2) ts with
                | none => none
                | some (st2, fs2, ws2, cl2) =>
                  some (st2, fs ++ fs2, ws ++ ws2, cl ++ cl2) := by
            simp [handleLines, hl, hpl, hpm]
          have e2 : handleLines parse st client (l :: rest) ts
              = match handleLines parse st1 client rest ts with
                | none => none
                | some (st2, fs2, ws2, cl2) =>
                  some (st2, fs ++ fs2, ws ++ ws2, cl ++ cl2) := by
            simp [handleLines, hl, hpl, hpm]
          rw [List.cons_append, e1, e2, ih]
          rcases hr : handleLines parse st1 client rest ts with _ | ⟨st2, fs2, ws2, cl2⟩
          · rfl
          · rcases hL2 : handleLines parse st2 client L2 ts with _ | ⟨st3, fs3, ws3, cl3⟩ <;>
              simp [hL2]

/-! ## Concrete inputs used by counterexamples and witnesses -/

/-- A hub with `"alice"` registered on socket 1 and socket 2 accepted but
unregistered. -/
def stAlice : HubState := ⟨[("alice", 1)], [(1, some "alice"), (2, none)]⟩

/-! ## Claims -/

/-- C1: re-registration of an identity from a different connection is
supposed to evict the old connection and install the new mapping
atomically under the registry lock.  The code instead deadlocks: the
REGISTER branch of `_process_message` holds `self.lock` when it calls
`_disconnect_client(old_sock)`, which re-acquires the same non-reentrant
`threading.Lock`.  Evaluating the embedded code at the failing input
(socket 2 re-registers `"alice"`, currently held by socket 1) yields the
deadlock marker, while the same REGISTER from a fresh identity
succeeds. -/
theorem C1_reregistration_deadlocks :
    processRegister false stAlice 2 (some "alice") "T" = none ∧
    processRegister false stAlice 2 (some "bob") "T" ≠ none := by
  constructor
  · rfl
  · decide

/-- C10: a REGISTER frame whose `session_id` is absent or empty is
silently ignored: the registry is unchanged, no frame (neither
`REGISTERED` nor `ERROR` nor `JOIN`) is written, no socket is closed, and
the connection stays in whatever (un)registered state it had. -/
theorem C10_falsy_register_ignored
    (held : Bool) (st : HubState) (client : Nat) (toF : ToField)
    (body : Option String) (ts : String) :
    processMessage held st client ⟨some "REGISTER", none, toF, body⟩ ts
        = some (st, [], [], []) ∧
    processMessage held st client ⟨some "REGISTER", some "", toF, body⟩ ts
        = some (st, [], [], []) := by
  constructor <;> rfl

/-- C8: a successful REGISTER of identity `sid` (one that does not hit
the eviction deadlock) acknowledges with the roster read *after* the
mapping is installed: the `online` list is exactly the identities
registered in the post-state, and `sid` itself is among them. -/
theorem C8_ack_roster_after_install
    (st : HubState) (client : Nat) (sid : String) (ts : String)
    (hne : sid ≠ "")
    (hold : dictGet st.clients sid = none ∨ dictGet st.clients sid = some client) :
    processRegister false st client (some sid) ts =
      some (⟨dictSet st.clients sid client,
             dictSet st.clientSessions client (some sid)⟩,
            (client, Frame.registered sid
              (dictKeys (dictSet st.clients sid client))) ::
              broadcastFrames
                ⟨dictSet st.clients sid client,
                 dictSet st.clientSessions client (some sid)⟩
                (Frame.join sid ts) [client],
            []) ∧
    sid ∈ dictKeys (dictSet st.clients sid client) := by
  refine ⟨?_, mem_dictKeys_dictSet st.clients sid client⟩
  rcases hold with h | h <;> simp [processRegister, acquire, hne, h]

/-- C8 witness: registering `"bob"` from socket 2 on `stAlice` succeeds
and the acknowledged roster is `["alice", "bob"]`, which contains
`"bob"`. -/
theorem C8_ack_roster_after_install_witness :
    processRegister false stAlice 2 (some "bob") "T" =
      some (⟨dictSet stAlice.clients "bob" 2,
             dictSet stAlice.clientSessions 2 (some "bob")⟩,
            (2, Frame.registered "bob"
              (dictKeys (dictSet stAlice.clients "bob" 2))) ::
              broadcastFrames
                ⟨dictSet stAlice.clients "bob" 2,
                 dictSet stAlice.clientSessions 2 (some "bob")⟩
                (Frame.join "bob" "T") [2],
            []) ∧
    "bob" ∈ dictKeys (dictSet stAlice.clients "bob" 2) :=
  C8_ack_roster_after_install stAlice 2 "bob" "T" (by decide) (Or.inl (by decide))

/-- A broadcast application message (`to` absent) as sent by `"alice"`. -/
def mBcast : InMsg := ⟨some "MSG", none, ToField.absent, some "hi"⟩

/-- C2 counterexample: the claim says a broadcast reaches no connection
that is not registered, but `_broadcast` iterates `client_sessions`,
which also contains accepted-but-unregistered sockets.  On `stAlice`,
socket 2 is unregistered (`sessionOf` is `none`) and still receives
`"alice"`'s broadcast. -/
theorem C2_broadcast_reaches_unregistered :
    (2, Frame.relay ⟨msgType mBcast, mBcast.body, mBcast.toF, "alice", "T",
        msgId "alice" "T"⟩) ∈ (processApp stAlice 1 mBcast "T").1 ∧
    sessionOf stAlice 2 = none := by
  constructor
  · decide
  · rfl

/-- C2 amended: a broadcast (empty/absent `to`) from a registered sender
is delivered to every *connected* socket except the sender's — including
accepted-but-unregistered connections — and never back to the sender. -/
theorem C2_broadcast_all_connected_except_sender
    (st : HubState) (client : Nat) (m : InMsg) (ts : String) (sender : String)
    (hs : sessionOf st client = some sender) (hsne : sender ≠ "")
    (hbc : coerceTo m.toF = []) (c : Nat) :
    ((c, Frame.relay ⟨msgType m, m.body, m.toF, sender, ts, msgId sender ts⟩)
        ∈ (processApp st client m ts).1)
      ↔ (c ∈ dictKeys st.clientSessions ∧ c ≠ client) := by
  simp only [processApp, hs, if_neg hsne, hbc]
  rw [List.mem_append]
  simp only [List.mem_singleton, Prod.mk.injEq, reduceCtorEq, and_false,
    or_false]
  rw [mem_broadcastFrames]
  simp

/-- C2 witness: on `stAlice` the broadcast from socket 1 reaches
socket 2 (connected, not the sender). -/
theorem C2_broadcast_all_connected_except_sender_witness :
    (2, Frame.relay ⟨msgType mBcast, mBcast.body, mBcast.toF, "alice", "T",
        msgId "alice" "T"⟩) ∈ (processApp stAlice 1 mBcast "T").1 :=
  (C2_broadcast_all_connected_except_sender stAlice 1 mBcast "T" "alice"
      rfl (by decide) rfl 2).mpr ⟨by decide, by decide⟩

/-- C3: an application message from a registered sender always produces
exactly one `SENT` confirmation, addressed to the sender and written
last; no `ERROR` frame is ever produced on this path; every recipient
identity that resolves in the registry receives the stamped message; and
every identity that does not resolve only yields a broker-side warning
diagnostic. -/
theorem C3_one_sent_no_error_independent_routing
    (st : HubState) (client : Nat) (m : InMsg) (ts : String) (sender : String)
    (hs : sessionOf st client = some sender) (hsne : sender ≠ "") :
    List.countP (fun p => isSentFrame p.2) (processApp st client m ts).1 = 1 ∧
    (processApp st client m ts).1.getLast? =
      some (client, Frame.sent (msgId sender ts)
        (match coerceTo m.toF with
         | [] => SentTo.broadcast
         | _ => SentTo.toList (coerceTo m.toF))) ∧
    List.countP (fun p => isErrorFrame p.2) (processApp st client m ts).1 = 0 ∧
    (∀ r ∈ coerceTo m.toF, ∀ c, dictGet st.clients r = some c →
      (c, Frame.relay ⟨msgType m, m.body, m.toF, sender, ts, msgId sender ts⟩)
        ∈ (processApp st client m ts).1) ∧
    (∀ r ∈ coerceTo m.toF, dictGet st.clients r = none →
      ("Session " ++ r ++ " not connected") ∈ (processApp st client m ts).2) := by
  rcases hrec : coerceTo m.toF with _ | ⟨r0, rest⟩
  · simp only [processApp, hs, if_neg hsne, hrec]
    refine ⟨?_, ?_, ?_, ?_, ?_⟩
    · rw [List.countP_append]
      rw [countP_eq_zero_of_forall _ _
        (fun p hp => by rw [snd_mem_broadcastFrames st _ [client] p hp]; rfl)]
      simp [isSentFrame]
    · rw [List.getLast?_concat]
    · rw [List.countP_append]
      rw [countP_eq_zero_of_forall _ _
        (fun p hp => by rw [snd_mem_broadcastFrames st _ [client] p hp]; rfl)]
      simp [isErrorFrame]
    · intro r hr; simp at hr
    · intro r hr; simp at hr
  · simp only [processApp, hs, if_neg hsne, hrec]
    refine ⟨?_, ?_, ?_, ?_, ?_⟩
    · rw [List.countP_append]
      rw [countP_eq_zero_of_forall _ _
        (fun p hp => by rw [snd_mem_routeAll st (r0 :: rest) _ p hp]; rfl)]
      simp [isSentFrame]
    · rw [List.getLast?_concat]
    · rw [List.countP_append]
      rw [countP_eq_zero_of_forall _ _
        (fun p hp => by rw [snd_mem_routeAll st (r0 :: rest) _ p hp]; rfl)]
      simp [isErrorFrame]
    · intro r hr c hc
      exact List.mem_append.mpr
        (Or.inl (routeAll_delivers st (r0 :: rest) _ r c hr hc))
    · intro r hr hc
      exact routeAll_warns st (r0 :: rest) _ r hr hc

/-- A directed message to the unregistered `"carol"` and the registered
`"alice"`. -/
def mCarol : InMsg := ⟨some "MSG", none, ToField.list ["carol", "alice"], some "hi"⟩

/-- C3 witness: `"alice"` sends to `["carol", "alice"]` on `stAlice`:
one `SENT`, no `ERROR`, delivery to `"alice"`'s socket, and a warning
for the unregistered `"carol"`. -/
theorem C3_one_sent_no_error_independent_routing_witness :
    List.countP (fun p => isSentFrame p.2) (processApp stAlice 1 mCarol "T").1 = 1 ∧
    (processApp stAlice 1 mCarol "T").1.getLast? =
      some (1, Frame.sent (msgId "alice" "T")
        (match coerceTo mCarol.toF with
         | [] => SentTo.broadcast
         | _ => SentTo.toList (coerceTo mCarol.toF))) ∧
    List.countP (fun p => isErrorFrame p.2) (processApp stAlice 1 mCarol "T").1 = 0 ∧
    (∀ r ∈ coerceTo mCarol.toF, ∀ c, dictGet stAlice.clients r = some c →
      (c, Frame.relay ⟨msgType mCarol, mCarol.body, mCarol.toF, "alice", "T",
          msgId "alice" "T"⟩) ∈ (processApp stAlice 1 mCarol "T").1) ∧
    (∀ r ∈ coerceTo mCarol.toF, dictGet stAlice.clients r = none →
      ("Session " ++ r ++ " not connected") ∈ (processApp stAlice 1 mCarol "T").2) :=
  C3_one_sent_no_error_independent_routing stAlice 1 mCarol "T" "alice"
    rfl (by decide)

/-- C9: an application message whose `to` field is a bare string `s` is
accepted and coerced to the one-element recipient list `[s]`: it takes
the directed-routing path (`routeAll`, not a broadcast, not an error),
and the `SENT` confirmation echoes the coerced list `[s]`. -/
theorem C9_string_to_coerced_singleton
    (st : HubState) (client : Nat) (ty : Option String) (sid? : Option String)
    (body : Option String) (s : String) (ts : String) (sender : String)
    (hty : ty.getD "MSG" ≠ "REGISTER")
    (hs : sessionOf st client = some sender) (hsne : sender ≠ "") :
    coerceTo (ToField.str s) = [s] ∧
    processMessage false st client ⟨ty, sid?, ToField.str s, body⟩ ts =
      some (st,
        (routeAll st [s]
            ⟨ty.getD "MSG", body, ToField.str s, sender, ts, msgId sender ts⟩).1
          ++ [(client, Frame.sent (msgId sender ts) (SentTo.toList [s]))],
        (routeAll st [s]
            ⟨ty.getD "MSG", body, ToField.str s, sender, ts, msgId sender ts⟩).2,
        []) := by
  refine ⟨rfl, ?_⟩
  simp only [processMessage, msgType, hty, if_false, processApp, hs,
    if_neg hsne, coerceTo]

/-- C9 witness: `"alice"` on socket 1 sends `to:"alice"` (a bare
string); it is routed as the directed list `["alice"]` and the `SENT`
echo carries `["alice"]`. -/
theorem C9_string_to_coerced_singleton_witness :
    coerceTo (ToField.str "alice") = ["alice"] ∧
    processMessage false stAlice 1 ⟨some "MSG", none, ToField.str "alice", some "hi"⟩ "T" =
      some (stAlice,
        (routeAll stAlice ["alice"]
            ⟨(some "MSG").getD "MSG", some "hi", ToField.str "alice", "alice", "T",
              msgId "alice" "T"⟩).1
          ++ [(1, Frame.sent (msgId "alice" "T") (SentTo.toList ["alice"]))],
        (routeAll stAlice ["alice"]
            ⟨(some "MSG").getD "MSG", some "hi", ToField.str "alice", "alice", "T",
              msgId "alice" "T"⟩).2,
        []) :=
  C9_string_to_coerced_singleton stAlice 1 (some "MSG") none (some "hi")
    "alice" "T" "alice" (by decide) rfl (by decide)

/-- C4 counterexample: the claim says `recv` with timeout 0 returns
immediately with an absent result on an empty queue, but
`message_queue.get(timeout=timeout if timeout > 0 else None)` passes
`timeout=None` when the timeout is 0, which blocks indefinitely. -/
theorem C4_zero_timeout_blocks_on_empty :
    clientRecv [] 0 = (RecvOutcome.blocks, []) ∧
    clientRecv [] 0 ≠ (RecvOutcome.empty, []) := by
  constructor
  · simp [clientRecv]
  · simp [clientRecv]

/-- C4 amended: with timeout 0 the call returns the head of the inbound
queue immediately when one is queued, but on an empty queue it blocks
indefinitely (the code passes `timeout=None` to `Queue.get`) instead of
returning an absent result. -/
theorem C4_zero_timeout_head_or_block :
    (∀ (m : CMsg) (rest : List CMsg),
      clientRecv (m :: rest) 0 = (RecvOutcome.msg m, rest)) ∧
    clientRecv [] 0 = (RecvOutcome.blocks, []) := by
  constructor
  · intro m rest
    simp [clientRecv]
  · simp [clientRecv]

/-- A non-`SENT` inbound frame (a routed message) and a `SENT` frame, as
they could sit in the client's queue during a confirmation wait. -/
def cmA : CMsg := ⟨some "MSG", some "x", none⟩

/-- A `SENT` confirmation frame queued behind `cmA`. -/
def cmB : CMsg := ⟨some "SENT", some "y", none⟩

/-- C5 counterexample: the claim says a popped non-`SENT` item goes back
to the FRONT of the queue, leaving the queue order unchanged; the code
uses `Queue.put`, which appends at the tail, so after the wait the queue
`[cmA, cmB]` has become `[cmB, cmA]`. -/
theorem C5_nonsent_requeued_at_tail_counterexample :
    (sendWait [cmA, cmB]).2 = [cmB, cmA] ∧
    (sendWait [cmA, cmB]).2 ≠ [cmA, cmB] := by
  constructor
  · rfl
  · decide

/-- C5 amended: if the first item popped during the confirmation wait is
not a `SENT` confirmation, it is re-enqueued with `Queue.put` at the
BACK of the queue (so subsequent receives can observe it reordered
behind messages that arrived after it), and the call returns at once
with the fallback `id:"unknown"` result; an empty queue times out to the
`id:"unconfirmed"` result — in neither case does the call block
indefinitely. -/
theorem C5_nonsent_requeued_at_tail :
    (∀ (m : CMsg) (rest : List CMsg), ¬ m.typeF = some "SENT" →
      sendWait (m :: rest) = (SendResult.unknownId, rest ++ [m])) ∧
    sendWait [] = (SendResult.unconfirmed, []) := by
  constructor
  · intro m rest h
    simp [sendWait, h]
  · rfl

/-- C5 witness: at the concrete queue `[cmA, cmB]` the non-`SENT` head
`cmA` is re-enqueued behind `cmB`. -/
theorem C5_nonsent_requeued_at_tail_witness :
    sendWait (cmA :: [cmB]) = (SendResult.unknownId, [cmB] ++ [cmA]) :=
  C5_nonsent_requeued_at_tail.1 cmA [cmB] (by decide)

/-- First half of a JSON frame, cut mid-frame:
`{"type":"MSG"` (invalid JSON on its own). -/
def jFrag1 : String := "\x7b\"type\":\"MSG\""

/-- Second half of the same frame: `,"body":"hi"}` (invalid JSON on its
own). -/
def jFrag2 : String := ",\"body\":\"hi\"\x7d"

/-- The complete frame `{"type":"MSG","body":"hi"}`. -/
def jFull : String := jFrag1 ++ jFrag2

/-- What `json.loads` yields on the complete frame `jFull`. -/
def jMsg : InMsg := ⟨some "MSG", none, ToField.absent, some "hi"⟩

/-- Models `json.loads` on the lines this example feeds it: the complete
frame `jFull` decodes to `jMsg`; every other line — in particular each of
the two mid-frame fragments — is invalid JSON. -/
def jParse : String → Option InMsg := fun s =>
  if s = jFull then some jMsg else none

/-- C6 counterexample: the hub keeps no per-connection byte buffer.  The
byte stream `jFull ++ "\n"` split into the two reads `jFrag1` and
`jFrag2 ++ "\n"` makes the broker mis-parse both fragments (two
`ERROR "Invalid JSON"` replies, the frame never processed), while the
same bytes arriving in a single read are processed normally — refuting
the claim that a frame split mid-frame across reads is reassembled on
every connection. -/
theorem C6_broker_split_frame_misparsed :
    handleRead jParse stAlice 1 jFrag1 "T" =
      some (stAlice, [(1, Frame.error "Invalid JSON")], [], []) ∧
    handleRead jParse stAlice 1 (jFrag2 ++ "\n") "T" =
      some (stAlice, [(1, Frame.error "Invalid JSON")], [], []) ∧
    handleRead jParse stAlice 1 (jFull ++ "\n") "T" =
      some (stAlice, (processApp stAlice 1 jMsg "T").1,
            (processApp stAlice 1 jMsg "T").2, []) := by
  refine ⟨?_, ?_, ?_⟩ <;> rfl

/-- C6 amended: frame handling is split-invariant only on the client
side.  (1) The client receive loop's per-connection buffer reassembles
frames: for every way a byte stream is split into chunks, feeding the
chunks one at a time through the loop produces exactly the same inbound
queue (and leftover buffer) as feeding the concatenated stream at once.
(2) The broker handles the lines of each single read independently and
in order (processing a concatenation of line batches is the composition
of processing the batches) — but it does this per read with no carry
buffer, so a frame split mid-frame across two reads is mis-parsed, as
the counterexample shows. -/
theorem C6_client_reassembles_broker_per_read :
    (∀ (parse : String → Option InMsg) (q : List InMsg)
        (chunks : List (List Char)),
      List.foldl (clientStep parse) ([], q) chunks
        = clientStep parse ([], q) chunks.flatten) ∧
    (∀ (parse : String → Option InMsg) (st : HubState) (client : Nat)
        (ts : String) (L1 L2 : List String),
      handleLines parse st client (L1 ++ L2) ts =
        match handleLines parse st client L1 ts with
        | none => none
        | some (st1, fs, ws, cl) =>
          match handleLines parse st1 client L2 ts with
          | none => none
          | some (st2, fs2, ws2, cl2) =>
            some (st2, fs ++ fs2, ws ++ ws2, cl ++ cl2)) := by
  constructor
  · intro parse q chunks
    exact foldl_clientStep parse chunks ([], q) (by intro c hc; simp at hc)
  · intro parse st client ts L1 L2
    exact handleLines_append parse st client L1 L2 ts

/-- On the application path a registered, truthy sender never receives
an `ERROR` frame: everything routed is a `relay`, plus the final
`SENT`. -/
theorem processApp_no_error_frames (st : HubState) (client : Nat) (m : InMsg)
    (ts : String) (sender : String)
    (hs : sessionOf st client = some sender) (hsne : sender ≠ "") :
    List.countP (fun p => isErrorFrame p.2) (processApp st client m ts).1 = 0 := by
  rcases hrec : coerceTo m.toF with _ | ⟨r0, rest⟩
  · simp only [processApp, hs, if_neg hsne, hrec]
    rw [List.countP_append]
    rw [countP_eq_zero_of_forall _ _
      (fun p hp => by rw [snd_mem_broadcastFrames st _ [client] p hp]; rfl)]
    simp [isErrorFrame]
  · simp only [processApp, hs, if_neg hsne, hrec]
    rw [List.countP_append]
    rw [countP_eq_zero_of_forall _ _
      (fun p hp => by rw [snd_mem_routeAll st (r0 :: rest) _ p hp]; rfl)]
    simp [isErrorFrame]

/-- C7: a read consisting of a well-formed frame, a malformed line, and
another well-formed frame (all application messages from a registered
sender) is handled without closing the connection or stopping the loop:
the two well-formed frames are processed in order, the malformed line
produces exactly one `ERROR "Invalid JSON"` reply to that connection —
the single `ERROR` frame in the whole read — and no socket is
disconnected. -/
theorem C7_malformed_line_one_error
    (parse : String → Option InMsg) (st : HubState) (client : Nat)
    (data : String) (ts : String) (l1 l2 l3 : String) (m1 m3 : InMsg)
    (sender : String)
    (hlines : pySplitNl (pyStrip data) = [l1, l2, l3])
    (hn1 : l1 ≠ "") (hn2 : l2 ≠ "") (hn3 : l3 ≠ "")
    (h1 : parse l1 = some m1) (h2 : parse l2 = none) (h3 : parse l3 = some m3)
    (hr1 : msgType m1 ≠ "REGISTER") (hr3 : msgType m3 ≠ "REGISTER")
    (hs : sessionOf st client = some sender) (hsne : sender ≠ "") :
    handleRead parse st client data ts =
      some (st,
        (processApp st client m1 ts).1
          ++ (client, Frame.error "Invalid JSON")
            :: (processApp st client m3 ts).1,
        (processApp st client m1 ts).2 ++ (processApp st client m3 ts).2,
        []) ∧
    List.countP (fun p => isErrorFrame p.2)
        ((processApp st client m1 ts).1
          ++ (client, Frame.error "Invalid JSON")
            :: (processApp st client m3 ts).1) = 1 := by
  constructor
  · rw [handleRead, hlines]
    simp only [handleLines, hn1, hn2, hn3, if_false, h1, h2, h3,
      processMessage, hr1, hr3, if_neg]
    rcases hp1 : processApp st client m1 ts with ⟨fs1, ws1⟩
    rcases hp3 : processApp st client m3 ts with ⟨fs3, ws3⟩
    simp
  · rw [List.countP_append, List.countP_cons,
      processApp_no_error_frames st client m1 ts sender hs hsne,
      processApp_no_error_frames st client m3 ts sender hs hsne]
    rfl

/-- The three-line read used as the C7 witness: a well-formed broadcast,
a malformed line, and another well-formed broadcast. -/
def d7 : String := "\x7b\"a\"\x7d\nnonsense\n\x7b\"c\"\x7d"

/-- Models `json.loads` for the witness read: the first and third lines
of `d7` decode to broadcast application messages, anything else is
invalid JSON. -/
def p7 : String → Option InMsg := fun s =>
  if s = "\x7b\"a\"\x7d" then some ⟨some "MSG", none, ToField.absent, some "a"⟩
  else if s = "\x7b\"c\"\x7d" then some ⟨some "MSG", none, ToField.absent, some "c"⟩
  else none

/-- C7 witness: the concrete read `d7` from the registered `"alice"` on
`stAlice` yields her first frame's deliveries, one `ERROR "Invalid
JSON"`, then her second frame's deliveries, with no disconnect. -/
theorem C7_malformed_line_one_error_witness :
    (handleRead p7 stAlice 1 d7 "T" =
      some (stAlice,
        (processApp stAlice 1 ⟨some "MSG", none, ToField.absent, some "a"⟩ "T").1
          ++ (1, Frame.error "Invalid JSON")
            :: (processApp stAlice 1 ⟨some "MSG", none, ToField.absent, some "c"⟩ "T").1,
        (processApp stAlice 1 ⟨some "MSG", none, ToField.absent, some "a"⟩ "T").2
          ++ (processApp stAlice 1 ⟨some "MSG", none, ToField.absent, some "c"⟩ "T").2,
        [])) ∧
    List.countP (fun p => isErrorFrame p.2)
        ((processApp stAlice 1 ⟨some "MSG", none, ToField.absent, some "a"⟩ "T").1
          ++ (1, Frame.error "Invalid JSON")
            :: (processApp stAlice 1 ⟨some "MSG", none, ToField.absent, some "c"⟩ "T").1) = 1 :=
  C7_malformed_line_one_error p7 stAlice 1 d7 "T"
    "\x7b\"a\"\x7d" "nonsense" "\x7b\"c\"\x7d"
    ⟨some "MSG", none, ToField.absent, some "a"⟩
    ⟨some "MSG", none, ToField.absent, some "c"⟩
    "alice" (by decide) (by decide) (by decide) (by decide)
    (by decide) (by decide) (by decide) (by decide) (by decide)
    rfl (by decide)

end Nclaude
